import Mathlib

/-
Verification development for the cockpit-machines-dashboard sources:
a shallow embedding of `src/machines-api.ts` and `src/dashboard.tsx`.

Remote interactions (session storage, D-Bus calls, signal delivery, channel
events) are modelled by explicit environment values describing what the
outside world does during one call; the embedded functions are pure functions
of those environments, translated line by line from the TypeScript source.
-/

namespace MachinesDashboard

/-- Universe of JavaScript values needed to give semantics to property access and
destructuring on the value resolved by checkMachineConnection: a plain string, an
object with string-valued fields, or undefined. -/
inductive JSVal where
  | str (s : String)
  | obj (fields : List (String × String))
  | undefined
deriving DecidableEq, Repr

/-- JS property access `v[k]` for the field names the dashboard reads: a plain
string has no own property named "state" or "hostname", so access yields
undefined; an object looks the field up, missing fields yield undefined. -/
def getField : JSVal → String → JSVal
  | .obj fs, k => match fs.lookup k with
    | some s => .str s
    | none => .undefined
  | _, _ => .undefined

/-- JS truthiness of an optional string (absent and the empty string are falsy). -/
def truthyOptStr (p : Option String) : Bool := p.getD "" != ""

/-! ### Connection prober (machines-api.ts, checkMachineConnection, lines 416-448) -/

/-- Environment for one run of checkMachineConnection on a remote host: either
`cockpit.channel` throws synchronously, or a close event (with or without a problem
code) arrives before the 10 second timeout, or no terminal response arrives and the
timeout fires. -/
inductive ProbeEnv where
  | channelThrows
  | closeEvent (problem : Option String)
  | timeoutFires
deriving DecidableEq, Repr

/-- Observable outcome of checkMachineConnection: the resolved JS value, whether a
remote channel was opened, and whether the 10 second timeout force-closed it. -/
structure ProbeRun where
  result : JSVal
  remoteCall : Bool
  forcedClose : Bool
deriving DecidableEq, Repr

/-- Shallow embedding of checkMachineConnection. The local host returns the plain
string "connected" without opening a channel; a remote host resolves "failed" when
channel creation throws, when the timeout fires (closing the channel), or when the
close event carries a truthy problem, and "connected" on a clean close. -/
def checkMachineConnection (host : String) (env : ProbeEnv) : ProbeRun :=
  if host = "localhost" then
    { result := .str "connected", remoteCall := false, forcedClose := false }
  else
    match env with
    | .channelThrows => { result := .str "failed", remoteCall := true, forcedClose := false }
    | .timeoutFires => { result := .str "failed", remoteCall := true, forcedClose := true }
    | .closeEvent p =>
        { result := .str (if truthyOptStr p then "failed" else "connected"),
          remoteCall := true, forcedClose := false }

/-! ### Machine registry reader (machines-api.ts, getMachinesList, lines 54-123) -/

/-- One host record as stored in the registry JSON (an entry of the content or
overlay map). Every field may be absent; a JSON null field is modelled as absent,
which agrees with the source for every test it performs on these fields. -/
structure MachineRecord where
  key : Option String := none
  address : Option String := none
  label : Option String := none
  user : Option String := none
  color : Option String := none
  state : Option String := none
  visible : Option Bool := none
  avatar : Option String := none
deriving DecidableEq, Repr

/-- A roster entry as produced by getMachinesList. -/
structure Machine where
  key : String
  address : String
  label : String
  user : Option String := none
  color : Option String := none
  state : Option String := none
  visible : Option Bool := none
  avatar : Option String := none
deriving DecidableEq, Repr

/-- The stored registry value: absent (getItem returned null or an empty string),
malformed (JSON.parse or the subsequent property access threw), or parsed into the
content and overlay maps, each an association list in JSON key order. -/
inductive RegInput where
  | absent
  | malformed
  | parsed (content overlay : List (String × MachineRecord))
deriving DecidableEq, Repr

/-- Spread-merge of one mandatory field: the object-literal default, overridden by
the content record's field when present, overridden by the overlay record's field
when present. -/
def spread3 {α : Type} (dflt : α) (c o : Option α) : α := (o.orElse fun _ => c).getD dflt

/-- Spread-merge of one optional field (overlay wins over content). -/
def spreadOpt {α : Type} (c o : Option α) : Option α := o.orElse fun _ => c

/-- Merge of the content and overlay records for one host key followed by the
default-label rule, as in the getMachinesList loop (lines 77-99): label defaults to
the host key; a falsy merged label becomes the local hostname for local-machine
aliases and the host key otherwise. -/
def mergeMachine (hostname host : String) (c o : Option MachineRecord) : Machine :=
  let cr := c.getD {}
  let ov := o.getD {}
  let label0 := spread3 host cr.label ov.label
  { key := spread3 host cr.key ov.key
    address := spread3 host cr.address ov.address
    label :=
      if label0 = "" then
        if host = "localhost" ∨ host = "localhost.localdomain" then hostname else host
      else label0
    user := spreadOpt cr.user ov.user
    color := spreadOpt cr.color ov.color
    state := spreadOpt cr.state ov.state
    visible := spreadOpt cr.visible ov.visible
    avatar := spreadOpt cr.avatar ov.avatar }

/-- First-occurrence deduplication: the iteration order of the JS Set built from the
content keys followed by the overlay keys. -/
def dedupGo : List String → List String → List String
  | [], _ => []
  | h :: t, seen => if h ∈ seen then dedupGo t seen else h :: dedupGo t (h :: seen)

/-- Deduplicated key list in first-occurrence order. -/
def insertionDedup (l : List String) : List String := dedupGo l []

/-- The single-entry fallback roster returned when the registry is absent, malformed,
or yields no visible machine (lines 59-65, 103-109, 115-121): the label falls back to
"localhost" when window.location.hostname is empty. -/
def localhostDefault (hostname : String) : Machine :=
  { key := "localhost", address := "localhost",
    label := if hostname = "" then "localhost" else hostname,
    state := some "connected", visible := some true }

/-- The merged, visibility-filtered machine list before the empty-fallback check and
the final sort (the loop of lines 77-99): one merged machine per deduplicated host
key, keeping those whose visible field is not strictly false. -/
def visibleRoster (hostname : String)
    (content overlay : List (String × MachineRecord)) : List Machine :=
  ((insertionDedup (content.map (·.1) ++ overlay.map (·.1))).map
      (fun h => mergeMachine hostname h (content.lookup h) (overlay.lookup h))).filter
    (fun m => m.visible != some false)

/-- Shallow embedding of getMachinesList. The comparator le models the fixed-locale
String.prototype.localeCompare order used by the final sort; Array.prototype.sort is
required to be stable, modelled here by a stable insertion sort. -/
def getMachinesList (le : String → String → Bool) (hostname : String)
    (inp : RegInput) : List Machine :=
  match inp with
  | .absent => [localhostDefault hostname]
  | .malformed => [localhostDefault hostname]
  | .parsed content overlay =>
      let machines := visibleRoster hostname content overlay
      if machines = [] then [localhostDefault hostname]
      else machines.insertionSort (fun a b => le a.label b.label = true)

/-! ### Update-transaction client (machines-api.ts, lines 169-392) -/

/-- Result of one awaited cockpit D-Bus call: the remote end either rejects the
promise with an error message or returns a value. -/
inductive CallResult (α : Type) where
  | rejected (msg : String)
  | returned (v : α)
deriving DecidableEq, Repr

/-- Identifier of one event-stream subscription registered by pkProxy.subscribe. -/
inductive PkSignal where
  | package
  | finished
  | errorCode
  | percentage
  | itemProgress
deriving DecidableEq, Repr

/-- Signal events delivered on a GetUpdates transaction. -/
inductive PkEvent where
  | package (info : Int) (packageId : String)
  | finished (exitCode : Int)
  | errorCode (code : Int) (msg : String)
deriving DecidableEq, Repr

/-- Environment of one getUpdatesForHost call: the CreateTransaction call result,
the proxy wait result, the signal events delivered while waiting (in order), and an
optional rejection of the invoking GetUpdates call, raced after the events. -/
structure PkEnv where
  createTx : CallResult (List String)
  txWait : CallResult Unit
  events : List PkEvent
  callReject : Option String
deriving DecidableEq, Repr

/-- Terminal disposition of the event-wait promise. -/
inductive GUTerm where
  | fin
  | errEv (msg : String)
  | rejected (msg : String)
  | hang
deriving DecidableEq, Repr

/-- The update entry pushed by the Package signal handler (lines 207-215): the name
is the packageId up to the first semicolon, the severity is "security" exactly for
PackageKit info code 8. -/
def pkgEntry (info : Int) (packageId : String) : String × String :=
  ((packageId.splitOn ";").headD "", if info == 8 then "security" else "normal")

/-- The event-wait of getUpdatesForHost (lines 219-238): package events accumulate;
the first Finished event resolves, the first ErrorCode event rejects with the remote
message; with no terminal event the GetUpdates rejection (if any) rejects, and
otherwise the promise never settles. -/
def guWait : List PkEvent → List (String × String) → Option String →
    GUTerm × List (String × String)
  | [], acc, some m => (.rejected m, acc)
  | [], acc, none => (.hang, acc)
  | .package i pid :: rest, acc, cr => guWait rest (acc ++ [pkgEntry i pid]) cr
  | .finished _ :: _, acc, _ => (.fin, acc)
  | .errorCode _ m :: _, acc, _ => (.errEv m, acc)

/-- Control-flow outcome of the getUpdatesForHost body. -/
inductive GUOutcome where
  | earlyFail (msg : String)
  | fin (pkgs : List (String × String))
  | errEv (pkgs : List (String × String)) (msg : String)
  | rejected (pkgs : List (String × String)) (msg : String)
  | hang (pkgs : List (String × String))
deriving DecidableEq, Repr

/-- Core of getUpdatesForHost: the outcome together with the subscriptions still
registered when the call returns. On success the Finished subscription is removed by
its own handler and the Package subscription at line 240, leaving ErrorCode; on a
remote error event only the ErrorCode subscription is removed; on a rejection of the
GetUpdates call nothing is removed. Before the subscription stage nothing was
registered. -/
def runGetUpdatesCore (env : PkEnv) : GUOutcome × List PkSignal :=
  match env.createTx with
  | .rejected m => (.earlyFail m, [])
  | .returned paths =>
      match paths.head? with
      | none => (.earlyFail "Failed to create PackageKit transaction", [])
      | some p =>
          if p = "" then (.earlyFail "Failed to create PackageKit transaction", [])
          else
            match env.txWait with
            | .rejected m => (.earlyFail m, [])
            | .returned _ =>
                match guWait env.events [] env.callReject with
                | (.fin, pkgs) => (.fin pkgs, [.errorCode])
                | (.errEv m, pkgs) => (.errEv pkgs m, [.package, .finished])
                | (.rejected m, pkgs) => (.rejected pkgs m, [.package, .finished, .errorCode])
                | (.hang, pkgs) => (.hang pkgs, [.package, .finished, .errorCode])

/-- JS String.prototype.includes for a nonempty pattern. -/
def strContains (s pat : String) : Bool := (s.splitOn pat).length != 1

/-- The catch block of getUpdatesForHost (lines 245-253): service-unavailable
messages become the informational "PackageKit not available", an empty message falls
back to the generic failure text, any other message passes through. -/
def classifyGUError (m : String) : String :=
  if strContains m "not-found" || strContains m "ServiceUnknown" then
    "PackageKit not available"
  else if m = "" then "Failed to check for updates" else m

/-- The UpdateInfo record of machines-api.ts with the timestamp abstracted to a
Nat-valued clock. -/
structure UpdateInfoM where
  total : Nat
  security : Nat
  loading : Bool
  error : Option String := none
  lastChecked : Option Nat := none
deriving DecidableEq, Repr

/-- Shallow embedding of getUpdatesForHost (lines 169-256): none models the run that
never receives a terminal response (the promise never settles); every settling run
produces an UpdateInfo; the second component is the list of subscriptions still
registered on return. -/
def getUpdatesForHost (now : Nat) (env : PkEnv) : Option (UpdateInfoM × List PkSignal) :=
  match runGetUpdatesCore env with
  | (.hang _, _) => none
  | (.fin pkgs, leak) =>
      some ({ total := pkgs.length,
              security := (pkgs.filter (fun u => u.2 == "security")).length,
              loading := false, error := none, lastChecked := some now }, leak)
  | (.earlyFail m, leak) =>
      some ({ total := 0, security := 0, loading := false,
              error := some (classifyGUError m), lastChecked := some now }, leak)
  | (.errEv _ m, leak) =>
      some ({ total := 0, security := 0, loading := false,
              error := some (classifyGUError m), lastChecked := some now }, leak)
  | (.rejected _ m, leak) =>
      some ({ total := 0, security := 0, loading := false,
              error := some (classifyGUError m), lastChecked := some now }, leak)

/-- Signal events delivered on an UpdatePackages transaction. -/
inductive InstEvent where
  | percentage (p : Int)
  | itemProgress (packageId : String) (p : Int)
  | finished (exitCode : Int)
  | errorCode (code : Int) (msg : String)
deriving DecidableEq, Repr

/-- Environment of one installUpdatesOnHost call. -/
structure InstEnv where
  createTx : CallResult (List String)
  txWait : CallResult Unit
  events : List InstEvent
  callReject : Option String
  hasProgress : Bool
  securityOnly : Bool
deriving DecidableEq, Repr

/-- The result object of installUpdatesOnHost. -/
structure InstallResult where
  success : Bool
  error : Option String := none
  rebootRequired : Option Bool := none
deriving DecidableEq, Repr

/-- Terminal disposition of the install event-wait promise. -/
inductive InstTerm where
  | fin (exitCode : Int)
  | errEv (msg : String)
  | rejected (msg : String)
  | hang
deriving DecidableEq, Repr

/-- The event-wait of installUpdatesOnHost together with the progress callback
invocations it performs (lines 290-340): a Percentage or ItemProgress event is
forwarded only when a callback was supplied and its percent is at most 100; the
first Finished or ErrorCode event is terminal. -/
def instWait (hp : Bool) : List InstEvent → List (Int × String) → Option String →
    InstTerm × List (Int × String)
  | [], acc, some m => (.rejected m, acc)
  | [], acc, none => (.hang, acc)
  | .percentage q :: rest, acc, cr =>
      instWait hp rest
        (if hp && decide (q ≤ 100) then acc ++ [(q, "Installing updates...")] else acc) cr
  | .itemProgress pid q :: rest, acc, cr =>
      instWait hp rest
        (if hp && decide (q ≤ 100) then
          acc ++ [(q, "Updating " ++ (pid.splitOn ";").headD "" ++ "...")]
        else acc) cr
  | .finished e :: _, acc, _ => (.fin e, acc)
  | .errorCode _ m :: _, acc, _ => (.errEv m, acc)

/-- The catch block of installUpdatesOnHost (lines 344-347). -/
def installFailMsg (m : String) : String :=
  if m = "" then "Failed to install updates" else m

/-- Observable run of installUpdatesOnHost: result none models the never-settling
wait; leaked lists the subscriptions still registered on return (none is ever
removed); calls lists the progress-callback invocations; callFlags records the
UpdatePackages flag word (1 = only-trusted, 5 adds security-only) when reached. -/
structure InstRun where
  result : Option InstallResult
  leaked : List PkSignal
  calls : List (Int × String)
  callFlags : Option Nat := none
deriving DecidableEq, Repr

/-- Shallow embedding of installUpdatesOnHost (lines 261-348). -/
def runInstallCore (env : InstEnv) : InstRun :=
  match env.createTx with
  | .rejected m =>
      { result := some { success := false, error := some (installFailMsg m) },
        leaked := [], calls := [] }
  | .returned paths =>
      match paths.head? with
      | none =>
          { result := some { success := false, error := some (installFailMsg "Failed to create PackageKit transaction") },
            leaked := [], calls := [] }
      | some p =>
          if p = "" then
            { result := some { success := false, error := some (installFailMsg "Failed to create PackageKit transaction") },
              leaked := [], calls := [] }
          else
            match env.txWait with
            | .rejected m =>
                { result := some { success := false, error := some (installFailMsg m) },
                  leaked := [], calls := [] }
            | .returned _ =>
                let subs := (if env.hasProgress then
                    [PkSignal.percentage, PkSignal.itemProgress] else []) ++
                  [PkSignal.finished, PkSignal.errorCode]
                let flags := if env.securityOnly then 5 else 1
                match instWait env.hasProgress env.events [] env.callReject with
                | (.fin e, calls) =>
                    { result := some { success := true, rebootRequired := some (e == 1) },
                      leaked := subs, calls := calls, callFlags := some flags }
                | (.errEv m, calls) =>
                    { result := some { success := false, error := some (installFailMsg m) },
                      leaked := subs, calls := calls, callFlags := some flags }
                | (.rejected m, calls) =>
                    { result := some { success := false, error := some (installFailMsg m) },
                      leaked := subs, calls := calls, callFlags := some flags }
                | (.hang, calls) =>
                    { result := none, leaked := subs, calls := calls,
                      callFlags := some flags }

/-- Signal events delivered on a RefreshCache transaction. -/
inductive RCEvent where
  | finished (exitCode : Int)
  | errorCode (code : Int) (msg : String)
deriving DecidableEq, Repr

/-- Environment of one refreshPackageCache call. -/
structure RefreshEnv where
  createTx : CallResult (List String)
  txWait : CallResult Unit
  events : List RCEvent
  callReject : Option String
deriving DecidableEq, Repr

/-- Disposition of refreshPackageCache: it resolves with no value, rejects with an
error (it has no catch of its own), or never settles. -/
inductive RCOutcome where
  | ok
  | err (msg : String)
  | hang
deriving DecidableEq, Repr

/-- The event-wait of refreshPackageCache (lines 375-391). -/
def rcWait : List RCEvent → Option String → RCOutcome
  | [], some m => .err m
  | [], none => .hang
  | .finished _ :: _, _ => .ok
  | .errorCode _ m :: _, _ => .err m

/-- Shallow embedding of refreshPackageCache (lines 353-392), with the list of
subscriptions still registered on return (neither handler removes itself). -/
def runRefreshCache (env : RefreshEnv) : RCOutcome × List PkSignal :=
  match env.createTx with
  | .rejected m => (.err m, [])
  | .returned paths =>
      match paths.head? with
      | none => (.err "Failed to create PackageKit transaction", [])
      | some p =>
          if p = "" then (.err "Failed to create PackageKit transaction", [])
          else
            match env.txWait with
            | .rejected m => (.err m, [])
            | .returned _ => (rcWait env.events env.callReject, [.finished, .errorCode])

/-- True when the transaction-creation call returned a nonempty object path and the
proxy wait succeeded, i.e. when an operation reaches its subscription stage. -/
def txReady (c : CallResult (List String)) (w : CallResult Unit) : Bool :=
  match c, w with
  | .returned (p :: _), .returned _ => p != ""
  | _, _ => false

/-! ### Claims about the prober and the registry reader -/

/-- C5: checkMachineConnection always resolves (it is a total function of its
environment and never rejects past its boundary): the local machine is classified
connected without any remote call; for a remote host, channel-creation failure, a
close event carrying a problem, and the 10 second timeout (which force-closes the
channel) all resolve to the failed classification. -/
theorem checkMachineConnection_resolves (host : String) (env : ProbeEnv) :
    ((checkMachineConnection host env).result = .str "connected" ∨
      (checkMachineConnection host env).result = .str "failed") ∧
    (host = "localhost" →
      checkMachineConnection host env =
        { result := .str "connected", remoteCall := false, forcedClose := false }) ∧
    (host ≠ "localhost" → env = .timeoutFires →
      (checkMachineConnection host env).result = .str "failed" ∧
        (checkMachineConnection host env).forcedClose = true) ∧
    (host ≠ "localhost" → env = .channelThrows →
      (checkMachineConnection host env).result = .str "failed") ∧
    (host ≠ "localhost" → ∀ p, p ≠ "" → env = .closeEvent (some p) →
      (checkMachineConnection host env).result = .str "failed") := by
  unfold checkMachineConnection
  by_cases h : host = "localhost"
  · simp [h]
  · cases env with
    | channelThrows => simp [h]
    | timeoutFires => simp [h]
    | closeEvent p =>
        refine ⟨?_, by simp [h], by simp, by simp, ?_⟩
        · by_cases hp : truthyOptStr p <;> simp [h, hp]
        · intro _ q hq hpq
          cases hpq
          simp [h, truthyOptStr, hq]

/-- Witness for C5 at a concrete remote host and the timeout environment. -/
theorem checkMachineConnection_resolves_witness :
    (checkMachineConnection "db1" .timeoutFires).result = .str "failed" ∧
      (checkMachineConnection "db1" .timeoutFires).forcedClose = true :=
  (checkMachineConnection_resolves "db1" .timeoutFires).2.2.1 (by decide) rfl

/-- C9: checkMachineConnection resolves to exactly one of the two plain strings
"connected" and "failed", never to a record; consequently a caller destructuring the
result as an object with state and hostname fields obtains undefined for both. -/
theorem checkMachineConnection_plain_string (host : String) (env : ProbeEnv) :
    (∃ s, (checkMachineConnection host env).result = JSVal.str s ∧
        (s = "connected" ∨ s = "failed")) ∧
    getField (checkMachineConnection host env).result "state" = .undefined ∧
    getField (checkMachineConnection host env).result "hostname" = .undefined := by
  unfold checkMachineConnection
  by_cases h : host = "localhost"
  · simp [h, getField]
  · cases env with
    | channelThrows => simp [h, getField]
    | timeoutFires => simp [h, getField]
    | closeEvent p =>
        by_cases hp : truthyOptStr p <;> simp [h, hp, getField]

/-- C1 (amended): the roster contains the local machine whenever the registry is
absent, unparsable, or yields no visible host record; in each of those cases it is
exactly the localhost fallback entry. As originally stated the claim fails for a
populated registry that does not itself list the local machine. -/
theorem getMachinesList_local_fallback (le : String → String → Bool) (hostname : String)
    (inp : RegInput)
    (h : ∀ c o, inp = .parsed c o → visibleRoster hostname c o = []) :
    getMachinesList le hostname inp = [localhostDefault hostname] ∧
      ∃ m ∈ getMachinesList le hostname inp, m.key = "localhost" ∧
        m.address = "localhost" := by
  have hmem : (localhostDefault hostname).key = "localhost" ∧
      (localhostDefault hostname).address = "localhost" := ⟨rfl, rfl⟩
  cases inp with
  | absent =>
      exact ⟨rfl, localhostDefault hostname, by simp [getMachinesList], hmem⟩
  | malformed =>
      exact ⟨rfl, localhostDefault hostname, by simp [getMachinesList], hmem⟩
  | parsed c o =>
      have hv : visibleRoster hostname c o = [] := h c o rfl
      refine ⟨by simp [getMachinesList, hv], localhostDefault hostname, ?_, hmem⟩
      simp [getMachinesList, hv]

/-- Witness for C1 (amended) at the absent registry input. -/
theorem getMachinesList_local_fallback_witness :
    getMachinesList (fun a b => decide (a ≤ b)) "myhost" .absent =
        [localhostDefault "myhost"] ∧
      ∃ m ∈ getMachinesList (fun a b => decide (a ≤ b)) "myhost" .absent,
        m.key = "localhost" ∧ m.address = "localhost" :=
  getMachinesList_local_fallback (fun a b => decide (a ≤ b)) "myhost" .absent
    (fun _ _ hco => RegInput.noConfusion hco)

/-- C1 counterexample: a well-formed registry whose only record is a non-local host
produces a roster that does not contain the local machine under any of its
identifying fields, refuting the claim for populated registries. -/
theorem getMachinesList_no_local_counterexample :
    (getMachinesList (fun a b => decide (a ≤ b)) "myhost"
        (.parsed [("10.0.0.5", {})] [])).map (fun m => m.key) = ["10.0.0.5"] ∧
      ¬ ∃ m ∈ getMachinesList (fun a b => decide (a ≤ b)) "myhost"
          (.parsed [("10.0.0.5", {})] []),
          m.key = "localhost" ∨ m.address = "localhost" ∨ m.label = "myhost" := by
  decide

/-- C8: reading and normalizing the same registry snapshot twice produces an
identical roster (the reader is a pure function of the stored value, the local
hostname, and the fixed locale comparator), and the returned roster is in ascending
label order under that comparator. -/
theorem getMachinesList_deterministic_sorted (le : String → String → Bool)
    (hostname : String) (inp : RegInput)
    (htrans : ∀ a b c, le a b = true → le b c = true → le a c = true)
    (htotal : ∀ a b, le a b = true ∨ le b a = true) :
    getMachinesList le hostname inp = getMachinesList le hostname inp ∧
      (getMachinesList le hostname inp).Pairwise
        (fun a b => le a.label b.label = true) := by
  refine ⟨rfl, ?_⟩
  haveI : IsTotal Machine (fun a b => le a.label b.label = true) :=
    ⟨fun a b => htotal a.label b.label⟩
  haveI : IsTrans Machine (fun a b => le a.label b.label = true) :=
    ⟨fun a b c hab hbc => htrans a.label b.label c.label hab hbc⟩
  cases inp with
  | absent => simp [getMachinesList]
  | malformed => simp [getMachinesList]
  | parsed c o =>
      by_cases hv : visibleRoster hostname c o = []
      · simp [getMachinesList, hv]
      · have hs := List.sorted_insertionSort
          (fun a b : Machine => le a.label b.label = true) (visibleRoster hostname c o)
        simpa [getMachinesList, hv, List.Sorted] using hs

/-- Witness for C8 with the standard string order and a two-record registry. -/
theorem getMachinesList_deterministic_sorted_witness :
    getMachinesList (fun a b => decide (a ≤ b)) "myhost"
        (.parsed [("beta", {}), ("alpha", {})] []) =
      getMachinesList (fun a b => decide (a ≤ b)) "myhost"
        (.parsed [("beta", {}), ("alpha", {})] []) ∧
      (getMachinesList (fun a b => decide (a ≤ b)) "myhost"
          (.parsed [("beta", {}), ("alpha", {})] [])).Pairwise
        (fun a b => decide (a.label ≤ b.label) = true) :=
  getMachinesList_deterministic_sorted (fun a b => decide (a ≤ b)) "myhost"
    (.parsed [("beta", {}), ("alpha", {})] [])
    (fun a b c hab hbc => by
      simp only [decide_eq_true_eq] at hab hbc ⊢
      exact le_trans hab hbc)
    (fun a b => by
      simp only [decide_eq_true_eq]
      exact le_total a b)

/-! ### Claims about the update-transaction client -/

/-- Characterization of txReady. -/
theorem txReady_iff (c : CallResult (List String)) (w : CallResult Unit) :
    txReady c w = true ↔
      ∃ p ps, c = .returned (p :: ps) ∧ p ≠ "" ∧ w = .returned () := by
  cases c with
  | rejected m => simp [txReady]
  | returned l =>
      cases l with
      | nil => simp [txReady]
      | cons p ps =>
          cases w with
          | rejected m => simp [txReady]
          | returned u => cases u; simp [txReady]

/-- C2 (amended): whenever one of the three transaction operations reaches its
subscription stage, at least one of the event-stream subscriptions it registered is
still registered when it returns: getUpdatesForHost removes at most two of its three
subscriptions (on success the ErrorCode subscription survives, on a remote error the
Package and Finished subscriptions survive, on a rejected invoking call all three
survive), while installUpdatesOnHost and refreshPackageCache remove none at all. -/
theorem subscriptions_leaked (envG : PkEnv) (envI : InstEnv) (envR : RefreshEnv)
    (hG : txReady envG.createTx envG.txWait = true)
    (hI : txReady envI.createTx envI.txWait = true)
    (hR : txReady envR.createTx envR.txWait = true) :
    (runGetUpdatesCore envG).2 ≠ [] ∧
      (runInstallCore envI).leaked ≠ [] ∧
      (runRefreshCache envR).2 ≠ [] := by
  obtain ⟨p, ps, hc, hp, hw⟩ := (txReady_iff _ _).1 hG
  obtain ⟨q, qs, hc2, hq, hw2⟩ := (txReady_iff _ _).1 hI
  obtain ⟨r, rs, hc3, hr, hw3⟩ := (txReady_iff _ _).1 hR
  refine ⟨?_, ?_, ?_⟩
  · unfold runGetUpdatesCore
    rw [hc, hw]
    rcases hgw : guWait envG.events [] envG.callReject with ⟨term, pkgs⟩
    cases term <;> simp [hp, hgw]
  · unfold runInstallCore
    rw [hc2, hw2]
    rcases hiw : instWait envI.hasProgress envI.events [] envI.callReject with ⟨term, calls⟩
    cases term <;> cases hhp : envI.hasProgress <;> simp [hq, hiw, hhp]
  · unfold runRefreshCache
    rw [hc3, hw3]
    simp [hr]

/-- Concrete ready environment for the C2 witness (GetUpdates call rejected). -/
def c2EnvG : PkEnv := { createTx := .returned ["/t1"], txWait := .returned (), events := [], callReject := some "x" }

/-- Concrete ready environment for the C2 witness (install hits a remote error). -/
def c2EnvI : InstEnv := { createTx := .returned ["/t2"], txWait := .returned (), events := [.errorCode 2 "bad"], callReject := none, hasProgress := false, securityOnly := true }

/-- Concrete ready environment for the C2 witness (cache refresh hits a remote error). -/
def c2EnvR : RefreshEnv := { createTx := .returned ["/t3"], txWait := .returned (), events := [.errorCode 2 "bad"], callReject := none }

/-- Witness for C2 (amended) at concrete ready environments. -/
theorem subscriptions_leaked_witness :
    (runGetUpdatesCore c2EnvG).2 ≠ [] ∧
      (runInstallCore c2EnvI).leaked ≠ [] ∧
      (runRefreshCache c2EnvR).2 ≠ [] :=
  subscriptions_leaked c2EnvG c2EnvI c2EnvR (by decide) (by decide) (by decide)

/-- C2 counterexample: on fully successful runs every operation returns with at
least one subscription it registered still registered, refuting the claim that each
operation releases every subscription before it returns. getUpdatesForHost keeps its
ErrorCode subscription; the other two operations keep all of theirs. -/
theorem subscriptions_leaked_counterexample :
    (runGetUpdatesCore { createTx := .returned ["/tx1"], txWait := .returned (), events := [.finished 0], callReject := none }).2 = [PkSignal.errorCode] ∧
      (runInstallCore { createTx := .returned ["/tx2"], txWait := .returned (), events := [.finished 0], callReject := none, hasProgress := true, securityOnly := false }).leaked =
        [PkSignal.percentage, PkSignal.itemProgress, PkSignal.finished, PkSignal.errorCode] ∧
      (runRefreshCache { createTx := .returned ["/tx3"], txWait := .returned (), events := [.finished 0], callReject := none }).2 =
        [PkSignal.finished, PkSignal.errorCode] := by
  decide

/-- Progress invocations recorded by instWait either were already accumulated or
carry a percent of at most 100. -/
theorem instWait_calls_le (hp : Bool) (events : List InstEvent)
    (acc : List (Int × String)) (cr : Option String) (p : Int) (s : String)
    (h : (p, s) ∈ (instWait hp events acc cr).2) :
    (p, s) ∈ acc ∨ p ≤ 100 := by
  induction events generalizing acc with
  | nil => cases cr <;> simp [instWait] at h <;> exact Or.inl h
  | cons e rest ih =>
      cases e with
      | percentage q =>
          rw [instWait] at h
          rcases ih _ h with hacc | hle
          · by_cases hc : hp && decide (q ≤ 100)
            · rw [if_pos hc] at hacc
              rcases List.mem_append.1 hacc with h1 | h2
              · exact Or.inl h1
              · simp at h2
                right
                rw [h2.1]
                exact of_decide_eq_true (Bool.and_elim_right hc)
            · rw [if_neg hc] at hacc
              exact Or.inl hacc
          · exact Or.inr hle
      | itemProgress pid q =>
          rw [instWait] at h
          rcases ih _ h with hacc | hle
          · by_cases hc : hp && decide (q ≤ 100)
            · rw [if_pos hc] at hacc
              rcases List.mem_append.1 hacc with h1 | h2
              · exact Or.inl h1
              · simp at h2
                right
                rw [h2.1]
                exact of_decide_eq_true (Bool.and_elim_right hc)
            · rw [if_neg hc] at hacc
              exact Or.inl hacc
          · exact Or.inr hle
      | finished e' =>
          rw [instWait] at h
          exact Or.inl h
      | errorCode c m =>
          rw [instWait] at h
          exact Or.inl h

/-- C6 (amended): every progress invocation forwarded by installUpdatesOnHost
carries a percent value of at most 100, i.e. events with a percentage above 100 are
ignored. Percentages below 0 are forwarded unchanged, so the original [0,100] bound
fails (see the counterexample). -/
theorem install_progress_at_most_100 (env : InstEnv) (p : Int) (s : String)
    (h : (p, s) ∈ (runInstallCore env).calls) : p ≤ 100 := by
  unfold runInstallCore at h
  rcases hc : env.createTx with m | paths
  · rw [hc] at h; simp at h
  · rw [hc] at h
    rcases paths with _ | ⟨q, qs⟩
    · simp at h
    · simp only [List.head?] at h
      by_cases hq : q = ""
      · rw [if_pos hq] at h; simp at h
      · rw [if_neg hq] at h
        rcases hw : env.txWait with m | u
        · rw [hw] at h; simp at h
        · rw [hw] at h
          rcases hiw : instWait env.hasProgress env.events [] env.callReject with ⟨term, calls⟩
          have hcalls : (p, s) ∈ calls := by
            cases term <;> simp [hiw] at h <;> exact h
          rcases instWait_calls_le env.hasProgress env.events [] env.callReject p s
              (by rw [hiw]; exact hcalls) with h0 | hle
          · simp at h0
          · exact hle

/-- Concrete install environment for the C6 witness. -/
def c6Env : InstEnv := { createTx := .returned ["/tw"], txWait := .returned (), events := [.percentage 42, .finished 0], callReject := none, hasProgress := true, securityOnly := false }

/-- Witness for C6 (amended) at a concrete in-range percentage event. -/
theorem install_progress_at_most_100_witness : (42 : Int) ≤ 100 :=
  install_progress_at_most_100 c6Env 42 "Installing updates..." (by decide)

/-- C6 counterexample: a Percentage event carrying the out-of-range value −5 is
forwarded to the progress callback, refuting the claim that percentages outside
[0,100] are never forwarded. -/
theorem install_progress_negative_counterexample :
    ((-5 : Int), "Installing updates...") ∈
        (runInstallCore { createTx := .returned ["/tx"], txWait := .returned (), events := [.percentage (-5), .finished 0], callReject := none, hasProgress := true, securityOnly := false }).calls ∧
      ¬ (0 ≤ (-5 : Int)) := by
  decide

/-- C7: every UpdateInfo produced by getUpdatesForHost has its security count at
most its total count; both are Nat values of the embedding, hence non-negative
integers. -/
theorem getUpdates_security_le_total (now : Nat) (env : PkEnv)
    (r : UpdateInfoM) (leak : List PkSignal)
    (h : getUpdatesForHost now env = some (r, leak)) : r.security ≤ r.total := by
  unfold getUpdatesForHost at h
  rcases hco : runGetUpdatesCore env with ⟨out, lk⟩
  rw [hco] at h
  cases out with
  | earlyFail m =>
      simp at h
      obtain ⟨h1, h2⟩ := h
      subst h1
      simp
  | fin pkgs =>
      simp at h
      obtain ⟨h1, h2⟩ := h
      subst h1
      exact List.length_filter_le _ _
  | errEv pkgs m =>
      simp at h
      obtain ⟨h1, h2⟩ := h
      subst h1
      simp
  | rejected pkgs m =>
      simp at h
      obtain ⟨h1, h2⟩ := h
      subst h1
      simp
  | hang pkgs => simp at h

/-- Concrete environment for the C7 witness: three package events, one of security
severity. -/
def c7Env : PkEnv := { createTx := .returned ["/t"], txWait := .returned (), events := [.package 8 "kernel;1;x;y", .package 1 "bash;2;x;y", .package 3 "vim;3;x;y", .finished 0], callReject := none }

/-- Witness for C7 on c7Env. -/
theorem getUpdates_security_le_total_witness :
    ({ total := 3, security := 1, loading := false, error := none,
        lastChecked := some 5 } : UpdateInfoM).security ≤ 3 :=
  getUpdates_security_le_total 5 c7Env
    { total := 3, security := 1, loading := false, error := none, lastChecked := some 5 }
    [PkSignal.errorCode] (by decide)

/-- Whether the embedded getUpdatesForHost run took a failure path (transaction
creation failed, the proxy wait failed, the remote emitted an error event, or the
invoking GetUpdates call rejected). -/
def guFailed (env : PkEnv) : Bool :=
  match (runGetUpdatesCore env).1 with
  | .earlyFail _ => true
  | .errEv _ _ => true
  | .rejected _ _ => true
  | _ => false

/-- Whether the run never receives a terminal response, in which case the code waits
indefinitely and produces nothing. -/
def guHangs (env : PkEnv) : Bool :=
  match (runGetUpdatesCore env).1 with
  | .hang _ => true
  | _ => false

/-- C10: for every environment in which the wait terminates, getUpdatesForHost
resolves (it never rejects) to an UpdateInfo with loading false and a non-null
lastChecked timestamp, and with a non-null error message on every failure path. -/
theorem getUpdates_always_resolves (now : Nat) (env : PkEnv)
    (h : guHangs env = false) :
    ∃ r leak, getUpdatesForHost now env = some (r, leak) ∧
      r.loading = false ∧ r.lastChecked = some now ∧
      (guFailed env = true → ∃ msg, r.error = some msg) := by
  rcases hco : runGetUpdatesCore env with ⟨out, lk⟩
  have hg : guHangs env = false := h
  unfold guHangs at hg
  rw [hco] at hg
  cases out with
  | earlyFail m =>
      exact ⟨_, lk, by unfold getUpdatesForHost; rw [hco], rfl, rfl, fun _ => ⟨_, rfl⟩⟩
  | fin pkgs =>
      exact ⟨_, lk, by unfold getUpdatesForHost; rw [hco], rfl, rfl,
        fun hf => by simp [guFailed, hco] at hf⟩
  | errEv pkgs m =>
      exact ⟨_, lk, by unfold getUpdatesForHost; rw [hco], rfl, rfl, fun _ => ⟨_, rfl⟩⟩
  | rejected pkgs m =>
      exact ⟨_, lk, by unfold getUpdatesForHost; rw [hco], rfl, rfl, fun _ => ⟨_, rfl⟩⟩
  | hang pkgs => simp at hg

/-- Concrete failing environment for the C10 witness (rejected CreateTransaction
call). -/
def c10Env : PkEnv := { createTx := .rejected "boom", txWait := .returned (), events := [], callReject := none }

/-- Witness for C10 on c10Env. -/
theorem getUpdates_always_resolves_witness :
    ∃ r leak, getUpdatesForHost 7 c10Env = some (r, leak) ∧
      r.loading = false ∧ r.lastChecked = some 7 ∧
      (guFailed c10Env = true → ∃ msg, r.error = some msg) :=
  getUpdates_always_resolves 7 c10Env (by decide)

/-! ### Dashboard state machine (dashboard.tsx) -/

/-- Per-machine dashboard state (the MachineWithUpdates record of dashboard.tsx):
state none models the JS undefined that refreshMachine writes after destructuring
the probe result; updateProgress is the in-flight install progress record. -/
structure MState where
  key : String
  state : Option String
  label : String
  updates : UpdateInfoM
  updating : Bool := false
  updateProgress : Option (Int × String) := none
deriving DecidableEq, Repr

/-- The externally visible operations performed by the dashboard handlers, in
program order. -/
inductive Action where
  | installAct (host : String)
  | probeAct (host : String)
  | refreshCacheAct (host : String)
  | checkUpdatesAct (host : String)
  | clearFlagsAct (host : String)
deriving DecidableEq, Repr

/-- The setMachines functional-update pattern used throughout dashboard.tsx:
`prev.map(m => m.key === host ? f(m) : m)`. -/
def mapHost (host : String) (g : MState → MState) (st : List MState) : List MState :=
  st.map (fun m => if m.key == host then g m else m)

/-- JS assignment of a destructured value to the state field: a string stays a
string, anything else (in particular undefined) is stored as undefined. -/
def jsToOptStr : JSVal → Option String
  | .str s => some s
  | _ => none

/-- JS `v || fallback` on a destructured value used as a string. -/
def jsStrOr (v : JSVal) (d : String) : String :=
  match v with
  | .str s => if s = "" then d else s
  | _ => d

/-- Environment for one refreshMachine call: the probe environment (used only when
the machine is not currently connected), the refreshPackageCache environment, the
getUpdatesForHost environment, and the clock. -/
structure RMEnv where
  probeEnv : ProbeEnv
  rcEnv : RefreshEnv
  updEnv : PkEnv
  now : Nat
deriving DecidableEq, Repr

/-- First setMachines of refreshMachine (dashboard.tsx lines 451-457): keep a
connected machine connected, mark any other state connecting, and raise loading. -/
def setLoadingConn (host : String) (st : List MState) : List MState :=
  mapHost host (fun m => { m with state := if m.state = some "connected" then some "connected" else some "connecting", updates := { m.updates with loading := true } }) st

/-- The tail of refreshMachine after the optional probe (lines 489-494 with the
catch of 495-508): refresh the package cache, then fetch updates (getUpdatesForHost
itself never rejects); a cache rejection is caught and recorded on the machine. -/
def cachePart (host : String) (env : RMEnv) (st : List MState) (acts : List Action) :
    Option (List MState × List Action) :=
  match (runRefreshCache env.rcEnv).1 with
  | .hang => none
  | .err msg =>
      some (mapHost host (fun m => { m with updates := { m.updates with loading := false, error := some msg } }) st,
        acts ++ [.refreshCacheAct host])
  | .ok =>
      match getUpdatesForHost env.now env.updEnv with
      | none => none
      | some (upd, _) =>
          some (mapHost host (fun m => { m with state := some "connected", updates := upd }) st,
            acts ++ [.refreshCacheAct host, .checkUpdatesAct host])

/-- Shallow embedding of the refreshMachine handler (dashboard.tsx lines 449-509).
The machines array captured by the handler closure is the state at entry. When the
found machine is not connected the handler destructures the probe's plain-string
result into two undefined fields, stores them, and — since undefined is never equal
to "connected" — records the not-connected error and returns. -/
def refreshMachine (host : String) (env : RMEnv) (st : List MState) :
    Option (List MState × List Action) :=
  let st1 := setLoadingConn host st
  match st.find? (fun m => m.key == host) with
  | some machine =>
      if machine.state ≠ some "connected" then
        let pr := checkMachineConnection host env.probeEnv
        let cs := getField pr.result "state"
        let hn := getField pr.result "hostname"
        let st2 := mapHost host (fun m => { m with state := jsToOptStr cs, label := jsStrOr hn m.label }) st1
        if !(cs == .str "connected") then
          some (mapHost host (fun m => { m with updates := { total := 0, security := 0, loading := false, error := some "Machine not connected", lastChecked := some env.now } }) st2,
            [.probeAct host])
        else
          cachePart host env st2 [.probeAct host]
      else cachePart host env st1 []
  | none => cachePart host env st1 []

/-- Environment for one updateMachine call. -/
structure UMEnv where
  instEnv : InstEnv
  rm : RMEnv
deriving DecidableEq, Repr

/-- First setMachines of updateMachine (dashboard.tsx lines 513-519). -/
def setUpdatingTrue (host : String) (st : List MState) : List MState :=
  mapHost host (fun m => { m with updating := true, updateProgress := some (0, "Starting update...") }) st

/-- The progress callback of updateMachine (lines 524-531). -/
def applyProgress (host : String) (c : Int × String) (st : List MState) : List MState :=
  mapHost host (fun m => { m with updateProgress := some c }) st

/-- The finally block of updateMachine (lines 548-556). -/
def clearFlags (host : String) (st : List MState) : List MState :=
  mapHost host (fun m => { m with updating := false, updateProgress := none }) st

/-- Shallow embedding of the updateMachine handler (dashboard.tsx lines 512-557):
set the updating flag and seed progress, run the install streaming progress into
updateProgress, on success refresh the machine, on reported failure throw into the
catch (which only raises an alert), and in the finally block unconditionally clear
updating and updateProgress. A run returns none when a remote wait never settles, in
which case the handler never resumes. -/
def updateMachine (host : String) (env : UMEnv) (st : List MState) :
    Option (List MState × List Action) :=
  let st1 := setUpdatingTrue host st
  let run := runInstallCore env.instEnv
  match run.result with
  | none => none
  | some res =>
      let st2 := run.calls.foldl (fun s c => applyProgress host c s) st1
      if res.success then
        match refreshMachine host env.rm st2 with
        | none => none
        | some (st3, racts) =>
            some (clearFlags host st3, .installAct host :: (racts ++ [.clearFlagsAct host]))
      else
        some (clearFlags host st2, [.installAct host, .clearFlagsAct host])

/-- The filter of updateAll (dashboard.tsx lines 585-587): connected, with pending
updates, not already updating. -/
def targetP (m : MState) : Bool :=
  m.state == some "connected" && decide (0 < m.updates.total) && !m.updating

/-- One bulk step of updateAll: await updateMachine on one roster entry and append
its actions to the trace. -/
def updateAllStep (envs : String → UMEnv) (acc : List MState × List Action)
    (m : MState) : Option (List MState × List Action) :=
  (updateMachine m.key (envs m.key) acc.1).map (fun p => (p.1, acc.2 ++ p.2))

/-- Shallow embedding of the updateAll handler (dashboard.tsx lines 583-594): filter
the roster at invocation time, then sequentially await updateMachine on each target
in roster order. The install scope flag and all remote behaviour are supplied per
host key by envs. -/
def updateAll (envs : String → UMEnv) (st : List MState) :
    Option (List MState × List Action) :=
  (st.filter targetP).foldlM (updateAllStep envs) (st, [])

/-- Extracts the host of an install action. -/
def instHost? : Action → Option String
  | .installAct h => some h
  | _ => none

/-! ### Structural lemmas about the dashboard state updates -/

/-- Injection for equalities between optional pairs. -/
theorem some_pair_eq {α β : Type} {a c : α} {b d : β}
    (h : some (a, b) = some (c, d)) : c = a ∧ d = b := by
  injection h with h'
  exact ⟨(congrArg Prod.fst h').symm, (congrArg Prod.snd h').symm⟩

/-- The probe resolves to a plain string, so any field read on it is undefined. -/
theorem getField_checkMachineConnection (host : String) (env : ProbeEnv) (k : String) :
    getField (checkMachineConnection host env).result k = .undefined := by
  unfold checkMachineConnection
  by_cases h : host = "localhost"
  · simp [h, getField]
  · cases env <;> simp [h, getField]

/-- Boolean equality between undefined and a string constant is false. -/
theorem undef_beq_str (s : String) : (JSVal.undefined == JSVal.str s) = false := rfl

/-- mapHost on nil. -/
theorem mapHost_nil (host : String) (g : MState → MState) : mapHost host g [] = [] := rfl

/-- mapHost on cons. -/
theorem mapHost_cons (host : String) (g : MState → MState) (a : MState) (t : List MState) :
    mapHost host g (a :: t) = (if a.key == host then g a else a) :: mapHost host g t := rfl

/-- mapHost with the identity update is the identity. -/
theorem mapHost_id (host : String) (st : List MState) :
    mapHost host (fun m => m) st = st := by
  unfold mapHost
  simp

/-- Two mapHost updates on the same host compose, provided the first preserves the
key it dispatches on. -/
theorem mapHost_comp (host : String) (g₁ g₂ : MState → MState) (st : List MState)
    (h₁ : ∀ m, (g₁ m).key = m.key) :
    mapHost host g₂ (mapHost host g₁ st) = mapHost host (fun m => g₂ (g₁ m)) st := by
  unfold mapHost
  rw [List.map_map]
  apply List.map_congr_left
  intro m _
  by_cases h : m.key == host
  · simp [Function.comp, h, h₁]
  · simp [Function.comp, h]

/-- Membership in a mapHost image. -/
theorem mem_mapHost {host : String} {g : MState → MState} {st : List MState}
    {m : MState} (h : m ∈ mapHost host g st) :
    ∃ m₀ ∈ st, m = if m₀.key == host then g m₀ else m₀ := by
  unfold mapHost at h
  obtain ⟨m₀, hm₀, heq⟩ := List.mem_map.1 h
  exact ⟨m₀, hm₀, heq.symm⟩

/-- find? on a key-dispatching search commutes with mapHost when the update
preserves keys. -/
theorem find?_mapHost (host : String) (g : MState → MState) (st : List MState)
    (hg : ∀ m, (g m).key = m.key) :
    (mapHost host g st).find? (fun m => m.key == host) =
      (st.find? (fun m => m.key == host)).map
        (fun m => if m.key == host then g m else m) := by
  induction st with
  | nil => simp [mapHost]
  | cons a t ih =>
      rw [mapHost_cons]
      by_cases ha : a.key = host
      · have h1 : (a.key == host) = true := by simpa using ha
        have h2 : ((g a).key == host) = true := by rw [hg]; exact h1
        simp [List.find?_cons, h1, h2, ha]
      · have h1 : (a.key == host) = false := by simpa using ha
        simpa [List.find?_cons, h1, ha] using ih

/-- The progress fold preserves key and connectivity state and only touches
updateProgress. -/
theorem foldl_progress_preserve (calls : List (Int × String)) (m : MState) :
    (calls.foldl (fun x c => { x with updateProgress := some c }) m).key = m.key ∧
      (calls.foldl (fun x c => { x with updateProgress := some c }) m).state = m.state ∧
      (calls.foldl (fun x c => { x with updateProgress := some c }) m).updating =
        m.updating := by
  induction calls generalizing m with
  | nil => exact ⟨rfl, rfl, rfl⟩
  | cons c cs ih => exact ih _

/-- Streaming the progress callback invocations through setMachines is a single
mapHost update. -/
theorem foldl_applyProgress (host : String) (calls : List (Int × String))
    (st : List MState) :
    calls.foldl (fun s c => applyProgress host c s) st =
      mapHost host
        (fun m => calls.foldl (fun x c => { x with updateProgress := some c }) m) st := by
  induction calls generalizing st with
  | nil => simp [mapHost_id]
  | cons c cs ih =>
      rw [List.foldl_cons, ih (applyProgress host c st)]
      unfold applyProgress
      rw [mapHost_comp host (fun m => { m with updateProgress := some c }) _ st
        (fun m => rfl)]
      rfl

/-- States st and st' differ only in entries keyed host, through a key-preserving
per-entry update. -/
def HostOnly (host : String) (st st' : List MState) : Prop :=
  ∃ G, st' = mapHost host G st ∧ ∀ m, (G m).key = m.key

/-- HostOnly is reflexive. -/
theorem hostOnly_refl (host : String) (st : List MState) : HostOnly host st st :=
  ⟨fun m => m, (mapHost_id host st).symm, fun _ => rfl⟩

/-- A single key-preserving mapHost step is HostOnly. -/
theorem hostOnly_single {host : String} {g : MState → MState} (st : List MState)
    (hg : ∀ m, (g m).key = m.key) : HostOnly host st (mapHost host g st) :=
  ⟨g, rfl, hg⟩

/-- HostOnly steps compose. -/
theorem hostOnly_trans {host : String} {st₁ st₂ st₃ : List MState}
    (h1 : HostOnly host st₁ st₂) (h2 : HostOnly host st₂ st₃) :
    HostOnly host st₁ st₃ := by
  obtain ⟨G₁, rfl, hk₁⟩ := h1
  obtain ⟨G₂, rfl, hk₂⟩ := h2
  rw [mapHost_comp host G₁ G₂ st₁ hk₁]
  exact ⟨_, rfl, fun m => (hk₂ (G₁ m)).trans (hk₁ m)⟩

/-- A key-preserving mapHost step after a HostOnly prefix. -/
theorem hostOnly_step {host : String} {g : MState → MState} {st st' : List MState}
    (hg : ∀ m, (g m).key = m.key) (h : HostOnly host st st') :
    HostOnly host st (mapHost host g st') :=
  hostOnly_trans h (hostOnly_single st' hg)

/-- The first setMachines of refreshMachine is HostOnly. -/
theorem hostOnly_setLoadingConn (host : String) (st : List MState) :
    HostOnly host st (setLoadingConn host st) := by
  unfold setLoadingConn
  exact hostOnly_single st (fun m => rfl)

/-- cachePart only rewrites entries of its host. -/
theorem cachePart_hostOnly (host : String) (env : RMEnv) (st : List MState)
    (acts : List Action) (st' : List MState) (acts' : List Action)
    (h : cachePart host env st acts = some (st', acts')) :
    HostOnly host st st' := by
  unfold cachePart at h
  split at h
  · exact absurd h (by simp)
  · obtain ⟨h1, h2⟩ := some_pair_eq h
    rw [h1]
    exact hostOnly_step (fun m => rfl) (hostOnly_refl host st)
  · split at h
    · exact absurd h (by simp)
    · obtain ⟨h1, h2⟩ := some_pair_eq h
      rw [h1]
      exact hostOnly_step (fun m => rfl) (hostOnly_refl host st)

/-- refreshMachine only rewrites entries of its host. -/
theorem refreshMachine_hostOnly (host : String) (env : RMEnv) (st : List MState)
    (st' : List MState) (acts : List Action)
    (h : refreshMachine host env st = some (st', acts)) :
    HostOnly host st st' := by
  unfold refreshMachine at h
  simp only [] at h
  split at h
  · -- found machine
    split at h
    · -- not connected: probe branch; the destructured state field is undefined
      rw [getField_checkMachineConnection host env.probeEnv "state", undef_beq_str,
        Bool.not_false] at h
      rw [if_pos rfl] at h
      obtain ⟨h1, h2⟩ := some_pair_eq h
      rw [h1]
      exact hostOnly_step (fun m => rfl)
        (hostOnly_step (fun m => rfl) (hostOnly_setLoadingConn host st))
    · exact hostOnly_trans (hostOnly_setLoadingConn host st)
        (cachePart_hostOnly host env _ _ st' acts h)
  · exact hostOnly_trans (hostOnly_setLoadingConn host st)
      (cachePart_hostOnly host env _ _ st' acts h)

/-- Like HostOnly, but the per-entry update also clears the updating flag and the
progress record. -/
def ClearedHostOnly (host : String) (st st' : List MState) : Prop :=
  ∃ G, st' = mapHost host G st ∧
    ∀ m, (G m).key = m.key ∧ (G m).updating = false ∧ (G m).updateProgress = none

/-- Ending a HostOnly run with clearFlags yields ClearedHostOnly. -/
theorem clearedHostOnly_clearFlags {host : String} {st stX : List MState}
    (h : HostOnly host st stX) : ClearedHostOnly host st (clearFlags host stX) := by
  obtain ⟨G, rfl, hk⟩ := h
  unfold clearFlags
  rw [mapHost_comp host G _ st hk]
  exact ⟨_, rfl, fun m => ⟨hk m, rfl, rfl⟩⟩

/-- The state updateMachine hands to refreshMachine is a key-preserving mapHost
image of its input. -/
theorem pre_refresh_hostOnly (host : String) (env : UMEnv) (st : List MState) :
    HostOnly host st ((runInstallCore env.instEnv).calls.foldl
      (fun s c => applyProgress host c s) (setUpdatingTrue host st)) := by
  rw [foldl_applyProgress]
  unfold setUpdatingTrue
  rw [mapHost_comp host
    (fun m => { m with updating := true, updateProgress := some (0, "Starting update...") })
    _ st (fun m => rfl)]
  exact hostOnly_single st (fun m => (foldl_progress_preserve _ _).1)

/-- updateMachine clears the flags of its host and rewrites nothing else. -/
theorem updateMachine_cleared (host : String) (env : UMEnv) (st st' : List MState)
    (acts : List Action) (h : updateMachine host env st = some (st', acts)) :
    ClearedHostOnly host st st' := by
  unfold updateMachine at h
  simp only [] at h
  split at h
  · exact absurd h (by simp)
  · split at h
    · split at h
      · exact absurd h (by simp)
      · rename_i st3 racts heq
        obtain ⟨h1, h2⟩ := some_pair_eq h
        rw [h1]
        exact clearedHostOnly_clearFlags
          (hostOnly_trans (pre_refresh_hostOnly host env st)
            (refreshMachine_hostOnly host env.rm _ _ _ heq))
    · obtain ⟨h1, h2⟩ := some_pair_eq h
      rw [h1]
      exact clearedHostOnly_clearFlags (pre_refresh_hostOnly host env st)

/-- Pointwise consequences of updateMachine: entries of the host end with cleared
flags, other entries pass through unchanged. -/
theorem updateMachine_mem (host : String) (env : UMEnv) (st st' : List MState)
    (acts : List Action) (h : updateMachine host env st = some (st', acts)) :
    ∀ m ∈ st', (m.key = host → m.updating = false ∧ m.updateProgress = none) ∧
      (m.key ≠ host → m ∈ st) := by
  obtain ⟨G, hGst, hG⟩ := updateMachine_cleared host env st st' acts h
  subst hGst
  intro m hm
  obtain ⟨m₀, hm₀, heq⟩ := mem_mapHost hm
  by_cases hk : (m₀.key == host) = true
  · rw [if_pos hk] at heq
    subst heq
    exact ⟨fun _ => ⟨(hG m₀).2.1, (hG m₀).2.2⟩,
      fun hne => absurd ((hG m₀).1.trans (by simpa using hk)) hne⟩
  · rw [if_neg hk] at heq
    subst heq
    exact ⟨fun hkey => absurd hkey (by simpa using hk), fun _ => hm₀⟩

/-- cachePart appends only cache and check actions, and exactly those two on a clean
cache refresh. -/
theorem cachePart_acts (host : String) (env : RMEnv) (st : List MState)
    (acts : List Action) (st' : List MState) (acts' : List Action)
    (h : cachePart host env st acts = some (st', acts')) :
    ∃ tail, acts' = acts ++ tail ∧ tail.filterMap instHost? = [] ∧
      ((runRefreshCache env.rcEnv).1 = .ok →
        tail = [.refreshCacheAct host, .checkUpdatesAct host]) := by
  unfold cachePart at h
  split at h
  · exact absurd h (by simp)
  · rename_i msg heq
    obtain ⟨h1, h2⟩ := some_pair_eq h
    refine ⟨[.refreshCacheAct host], h2, by simp [instHost?], fun hok => ?_⟩
    rw [heq] at hok
    exact absurd hok (by simp)
  · split at h
    · exact absurd h (by simp)
    · obtain ⟨h1, h2⟩ := some_pair_eq h
      exact ⟨[.refreshCacheAct host, .checkUpdatesAct host], h2,
        by simp [instHost?], fun _ => rfl⟩

/-- refreshMachine performs no install action; on a machine that is connected (or
absent) at entry, with a clean cache refresh, it performs exactly the cache refresh
followed by the update check. -/
theorem refreshMachine_acts (host : String) (env : RMEnv) (st : List MState)
    (st' : List MState) (acts : List Action)
    (h : refreshMachine host env st = some (st', acts)) :
    acts.filterMap instHost? = [] ∧
      ((∀ m ∈ st, m.key = host → m.state = some "connected") →
        (runRefreshCache env.rcEnv).1 = .ok →
        acts = [.refreshCacheAct host, .checkUpdatesAct host]) := by
  unfold refreshMachine at h
  simp only [] at h
  split at h
  · rename_i machine hfind
    split at h
    · rename_i hs
      rw [getField_checkMachineConnection host env.probeEnv "state", undef_beq_str,
        Bool.not_false] at h
      rw [if_pos rfl] at h
      obtain ⟨h1, h2⟩ := some_pair_eq h
      subst h2
      refine ⟨by simp [instHost?], fun hconn _ => ?_⟩
      exact absurd
        (hconn machine (List.mem_of_find?_eq_some hfind)
          (by simpa using List.find?_some hfind)) hs
    · obtain ⟨tail, htail, hfm, hok⟩ := cachePart_acts host env _ _ st' acts h
      subst htail
      exact ⟨by simpa using hfm, fun hconn hcok => by simpa using hok hcok⟩
  · obtain ⟨tail, htail, hfm, hok⟩ := cachePart_acts host env _ _ st' acts h
    subst htail
    exact ⟨by simpa using hfm, fun hconn hcok => by simpa using hok hcok⟩

/-- updateMachine performs exactly one install action, on its own host. -/
theorem updateMachine_acts (host : String) (env : UMEnv) (st st' : List MState)
    (acts : List Action) (h : updateMachine host env st = some (st', acts)) :
    acts.filterMap instHost? = [host] := by
  unfold updateMachine at h
  simp only [] at h
  split at h
  · exact absurd h (by simp)
  · split at h
    · split at h
      · exact absurd h (by simp)
      · rename_i st3 racts heq
        obtain ⟨h1, h2⟩ := some_pair_eq h
        subst h2
        have hr := (refreshMachine_acts host env.rm _ _ _ heq).1
        simp [instHost?, List.filterMap_append, hr]
    · obtain ⟨h1, h2⟩ := some_pair_eq h
      subst h2
      simp [instHost?]

/-- Whether the embedded install terminated with reported success. -/
def instSucceeded (env : InstEnv) : Bool :=
  match (runInstallCore env).result with
  | some r => r.success
  | none => false

/-- Whether the embedded install terminated with reported failure. -/
def instTerminatedFailed (env : InstEnv) : Bool :=
  match (runInstallCore env).result with
  | some r => !r.success
  | none => false

/-- Connectedness of the host entries survives the pre-install bookkeeping. -/
theorem pre_refresh_connected (host : String) (env : UMEnv) (st : List MState)
    (hconn : ∀ m ∈ st, m.key = host → m.state = some "connected") :
    ∀ m ∈ (runInstallCore env.instEnv).calls.foldl
        (fun s c => applyProgress host c s) (setUpdatingTrue host st),
      m.key = host → m.state = some "connected" := by
  intro m hm hk
  rw [foldl_applyProgress] at hm
  unfold setUpdatingTrue at hm
  rw [mapHost_comp host
    (fun m => { m with updating := true, updateProgress := some (0, "Starting update...") })
    _ st (fun m => rfl)] at hm
  obtain ⟨m₀, hm₀, heq⟩ := mem_mapHost hm
  by_cases hb : (m₀.key == host) = true
  · rw [if_pos hb] at heq
    subst heq
    exact ((foldl_progress_preserve _ _).2.1).trans (hconn m₀ hm₀ (by simpa using hb))
  · rw [if_neg hb] at heq
    rw [heq]
    exact hconn m₀ hm₀ (by rw [← heq]; exact hk)

/-- C4 (amended): on every terminating install invocation the machine's updating
flag and installProgress record are cleared unconditionally, whether the install
reported success or failure; a fresh update check is triggered only when the install
reports success — the cache refresh and update fetch then run before the flags are
cleared — and on reported failure no update check is triggered at all. -/
theorem updateMachine_completion (host : String) (env : UMEnv) (st st' : List MState)
    (acts : List Action) (h : updateMachine host env st = some (st', acts)) :
    (∀ m ∈ st', m.key = host → m.updating = false ∧ m.updateProgress = none) ∧
      (instTerminatedFailed env.instEnv = true →
        acts = [.installAct host, .clearFlagsAct host]) ∧
      (instSucceeded env.instEnv = true →
        (∀ m ∈ st, m.key = host → m.state = some "connected") →
        (runRefreshCache env.rm.rcEnv).1 = .ok →
        acts = [.installAct host, .refreshCacheAct host, .checkUpdatesAct host,
          .clearFlagsAct host]) := by
  refine ⟨fun m hm hk => (updateMachine_mem host env st st' acts h m hm).1 hk, ?_, ?_⟩
  · intro hfail
    unfold updateMachine at h
    simp only [] at h
    split at h
    · exact absurd h (by simp)
    · rename_i res heqres
      split at h
      · rename_i hsucc
        simp only [instTerminatedFailed, heqres] at hfail
        simp [hsucc] at hfail
      · obtain ⟨h1, h2⟩ := some_pair_eq h
        exact h2
  · intro hsuccD hconn hcok
    unfold updateMachine at h
    simp only [] at h
    split at h
    · exact absurd h (by simp)
    · rename_i res heqres
      split at h
      · split at h
        · exact absurd h (by simp)
        · rename_i st3 racts heq
          obtain ⟨h1, h2⟩ := some_pair_eq h
          subst h2
          have hracts := (refreshMachine_acts host env.rm _ _ _ heq).2
            (pre_refresh_connected host env st hconn) hcok
          rw [hracts]
          rfl
      · rename_i hsucc
        simp only [instSucceeded, heqres] at hsuccD
        exact absurd hsuccD hsucc

/-- Install trace of one sequential bulk fold. -/
theorem updateAll_go_trace (envs : String → UMEnv) (ts : List MState) :
    ∀ (st : List MState) (acc : List Action) (stF : List MState) (actsF : List Action),
      ts.foldlM (updateAllStep envs) (st, acc) = some (stF, actsF) →
      actsF.filterMap instHost? = acc.filterMap instHost? ++ ts.map (fun m => m.key) := by
  induction ts with
  | nil =>
      intro st acc stF actsF h
      rw [List.foldlM_nil] at h
      obtain ⟨h1, h2⟩ := some_pair_eq h
      subst h2
      simp
  | cons t ts ih =>
      intro st acc stF actsF h
      rw [List.foldlM_cons] at h
      rcases hstep : updateAllStep envs (st, acc) t with _ | p
      · rw [hstep] at h
        exact absurd h (by simp)
      · rcases p with ⟨st1, acc1⟩
        rw [hstep] at h
        replace h : ts.foldlM (updateAllStep envs) (st1, acc1) = some (stF, actsF) := h
        unfold updateAllStep at hstep
        rcases hum : updateMachine t.key (envs t.key) st with _ | q
        · rw [hum] at hstep
          exact absurd hstep (by simp)
        · rcases q with ⟨stU, actsU⟩
          rw [hum] at hstep
          simp only [Option.map_some'] at hstep
          obtain ⟨hst1, hacc1⟩ := some_pair_eq hstep
          rw [ih _ _ _ _ h, hacc1, List.filterMap_append,
            updateMachine_acts t.key (envs t.key) st stU actsU hum]
          simp

/-- After one sequential bulk fold every visited key has a cleared updating flag and
unvisited entries pass through unchanged. -/
theorem updateAll_go_updating (envs : String → UMEnv) (ts : List MState) :
    ∀ (st : List MState) (acc : List Action) (stF : List MState) (actsF : List Action),
      ts.foldlM (updateAllStep envs) (st, acc) = some (stF, actsF) →
      ∀ m ∈ stF, (m.key ∈ ts.map (fun x => x.key) → m.updating = false) ∧
        (m.key ∉ ts.map (fun x => x.key) → m ∈ st) := by
  induction ts with
  | nil =>
      intro st acc stF actsF h m hm
      rw [List.foldlM_nil] at h
      obtain ⟨h1, h2⟩ := some_pair_eq h
      subst h1
      exact ⟨fun hk => absurd hk (by simp), fun _ => hm⟩
  | cons t ts ih =>
      intro st acc stF actsF h m hm
      rw [List.foldlM_cons] at h
      rcases hstep : updateAllStep envs (st, acc) t with _ | p
      · rw [hstep] at h
        exact absurd h (by simp)
      · rcases p with ⟨st1, acc1⟩
        rw [hstep] at h
        replace h : ts.foldlM (updateAllStep envs) (st1, acc1) = some (stF, actsF) := h
        unfold updateAllStep at hstep
        rcases hum : updateMachine t.key (envs t.key) st with _ | q
        · rw [hum] at hstep
          exact absurd hstep (by simp)
        · rcases q with ⟨stU, actsU⟩
          rw [hum] at hstep
          simp only [Option.map_some'] at hstep
          obtain ⟨hst1, hacc1⟩ := some_pair_eq hstep
          have hmem := updateMachine_mem t.key (envs t.key) st stU actsU hum
          have hih := ih _ _ _ _ h m hm
          have hihmem : m.key ∉ ts.map (fun x => x.key) → m ∈ stU :=
            fun hts => hst1 ▸ hih.2 hts
          constructor
          · intro hk
            rw [List.map_cons] at hk
            rcases List.mem_cons.1 hk with heqk | hmemts
            · by_cases hts : m.key ∈ ts.map (fun x => x.key)
              · exact hih.1 hts
              · exact ((hmem m (hihmem hts)).1 heqk).1
            · exact hih.1 hmemts
          · intro hk
            rw [List.map_cons] at hk
            have hne : m.key ≠ t.key := fun hc => hk (by rw [hc]; exact List.mem_cons_self _ _)
            have hnts : m.key ∉ ts.map (fun x => x.key) :=
              fun hc => hk (List.mem_cons_of_mem _ hc)
            exact (hmem m (hihmem hnts)).2 hne

/-- C3: updateAll installs on exactly the machines that, at invocation time, are
connected with pending updates and not already updating; the install trace lists
them one at a time in roster order, and after completion every visited machine's
updating flag is false. -/
theorem updateAll_exact_targets (envs : String → UMEnv) (st stF : List MState)
    (actsF : List Action) (h : updateAll envs st = some (stF, actsF)) :
    actsF.filterMap instHost? = (st.filter targetP).map (fun m => m.key) ∧
      ∀ m ∈ stF, m.key ∈ (st.filter targetP).map (fun m => m.key) →
        m.updating = false := by
  unfold updateAll at h
  constructor
  · simpa using updateAll_go_trace envs (st.filter targetP) st [] stF actsF h
  · intro m hm hk
    exact ((updateAll_go_updating envs (st.filter targetP) st [] stF actsF h) m hm).1 hk

/-- Concrete remote environment for the C4 witness and counterexample: the probe is
never needed, the cache refresh and the update fetch both finish cleanly. -/
def c4RM : RMEnv := { probeEnv := .closeEvent none, rcEnv := { createTx := .returned ["/r"], txWait := .returned (), events := [.finished 0], callReject := none }, updEnv := { createTx := .returned ["/u"], txWait := .returned (), events := [.finished 0], callReject := none }, now := 3 }

/-- Concrete successful install environment for the C4 witness. -/
def c4SuccEnv : UMEnv := { instEnv := { createTx := .returned ["/i"], txWait := .returned (), events := [.finished 1], callReject := none, hasProgress := true, securityOnly := false }, rm := c4RM }

/-- Concrete failing install environment for the C4 counterexample. -/
def c4FailEnv : UMEnv := { instEnv := { createTx := .returned ["/i"], txWait := .returned (), events := [.errorCode 2 "dep"], callReject := none, hasProgress := true, securityOnly := false }, rm := c4RM }

/-- Connected single-machine dashboard state for the C4 witness and counterexample. -/
def c4St : List MState := [{ key := "a", state := some "connected", label := "a", updates := { total := 2, security := 1, loading := false, error := none, lastChecked := none }, updating := false, updateProgress := none }]

/-- Final state of the successful C4 witness run. -/
def c4StF : List MState := [{ key := "a", state := some "connected", label := "a", updates := { total := 0, security := 0, loading := false, error := none, lastChecked := some 3 }, updating := false, updateProgress := none }]

/-- Action trace of the successful C4 witness run. -/
def c4Acts : List Action := [.installAct "a", .refreshCacheAct "a", .checkUpdatesAct "a", .clearFlagsAct "a"]

/-- Witness for C4 (amended) on a concrete successful install run. -/
theorem updateMachine_completion_witness :
    (∀ m ∈ c4StF, m.key = "a" → m.updating = false ∧ m.updateProgress = none) ∧
      (instTerminatedFailed c4SuccEnv.instEnv = true →
        c4Acts = [.installAct "a", .clearFlagsAct "a"]) ∧
      (instSucceeded c4SuccEnv.instEnv = true →
        (∀ m ∈ c4St, m.key = "a" → m.state = some "connected") →
        (runRefreshCache c4SuccEnv.rm.rcEnv).1 = .ok →
        c4Acts = [.installAct "a", .refreshCacheAct "a", .checkUpdatesAct "a",
          .clearFlagsAct "a"]) :=
  updateMachine_completion "a" c4SuccEnv c4St c4StF c4Acts (by decide)

/-- C4 counterexample: a concrete install run that terminates with a reported
failure clears the flags but triggers no update check at all — the action trace is
exactly the install followed by the flag clearing, with no cache refresh and no
update fetch — refuting the claim that a fresh update check follows every install
termination. -/
theorem updateMachine_failure_counterexample :
    updateMachine "a" c4FailEnv c4St =
        some (c4St, [Action.installAct "a", Action.clearFlagsAct "a"]) ∧
      Action.checkUpdatesAct "a" ∉ [Action.installAct "a", Action.clearFlagsAct "a"] ∧
      Action.refreshCacheAct "a" ∉ [Action.installAct "a", Action.clearFlagsAct "a"] := by
  decide

/-- Concrete remote environment for the C3 witness. -/
def c3RM : RMEnv := { probeEnv := .closeEvent none, rcEnv := { createTx := .returned ["/r"], txWait := .returned (), events := [.finished 0], callReject := none }, updEnv := { createTx := .returned ["/u"], txWait := .returned (), events := [.finished 0], callReject := none }, now := 3 }

/-- Concrete per-host environments for the C3 witness (every host installs
successfully). -/
def c3Envs : String → UMEnv := fun _ => { instEnv := { createTx := .returned ["/i"], txWait := .returned (), events := [.finished 1], callReject := none, hasProgress := true, securityOnly := false }, rm := c3RM }

/-- Two-machine dashboard state for the C3 witness: one connected machine with
pending updates and one failed machine. -/
def c3St : List MState := [{ key := "a", state := some "connected", label := "a", updates := { total := 2, security := 1, loading := false, error := none, lastChecked := none }, updating := false, updateProgress := none }, { key := "b", state := some "failed", label := "b", updates := { total := 3, security := 0, loading := false, error := none, lastChecked := none }, updating := false, updateProgress := none }]

/-- Final state of the C3 witness run. -/
def c3StF : List MState := [{ key := "a", state := some "connected", label := "a", updates := { total := 0, security := 0, loading := false, error := none, lastChecked := some 3 }, updating := false, updateProgress := none }, { key := "b", state := some "failed", label := "b", updates := { total := 3, security := 0, loading := false, error := none, lastChecked := none }, updating := false, updateProgress := none }]

/-- Action trace of the C3 witness run. -/
def c3Acts : List Action := [.installAct "a", .refreshCacheAct "a", .checkUpdatesAct "a", .clearFlagsAct "a"]

/-- Witness for C3 on a concrete two-machine roster. -/
theorem updateAll_exact_targets_witness :
    c3Acts.filterMap instHost? = (c3St.filter targetP).map (fun m => m.key) ∧
      ∀ m ∈ c3StF, m.key ∈ (c3St.filter targetP).map (fun m => m.key) →
        m.updating = false :=
  updateAll_exact_targets c3Envs c3St c3StF c3Acts (by decide)

end MachinesDashboard
